import Mathlib

/-! The todogo backend: session, login and todo handlers.

A shallow embedding of `src/todogobackend/main.go`.

* The PostgreSQL datastore is a record of three tables (lists of rows, in
  insertion order) threaded through every handler.
* Each handler takes the request, the environment of the request (clock
  readings, random bytes, datastore faults) and returns the new datastore, the
  HTTP response and the list of calls it made.
* Times are nanoseconds as `Int`; Go `int` ids are `Int`. A time written to a
  table is cut to the whole microsecond, the precision of the timestamp columns.
* CORS and content-type headers are not modelled: a response is a status code
  and a body.
-/

namespace Todogo

/-! ## Data model (main.go, lines 21-40) -/

/-- An instant (`time.Time`), in nanoseconds. -/
abbrev Time := Int

/-- A `time.Time` as it reaches a timestamp column: `pgx` sends whole
microseconds (the seconds times 1000000 plus the nanoseconds divided by 1000,
remainder dropped), which is all a PostgreSQL timestamp holds. -/
def truncMicro (t : Time) : Time :=
  t / 1000 * 1000

/-- The Go struct `User`, also the row type of table `todousers`. -/
structure User where
  ID : Int
  Email : String
  PasswordHash : String
  CreatedAt : Time
  deriving DecidableEq

/-- The Go struct `Session`, also the row type of table `sessions`. -/
structure Session where
  ID : String
  UserID : Int
  ExpiresAt : Time
  deriving DecidableEq

/-- The Go struct `Todo`, also the row type of table `todos`. -/
structure Todo where
  ID : Int
  UserID : Int
  Title : String
  Completed : Bool
  CreatedAt : Time
  deriving DecidableEq

/-- A Go slice value: `nil`, or a (possibly empty) sequence of elements. -/
inductive Slice (α : Type) where
  | nil
  | vals (xs : List α)
  deriving DecidableEq

/-- Go's `append(s, x)`: appending to the nil slice allocates. -/
def Slice.append {α : Type} : Slice α → α → Slice α
  | .nil, x => .vals [x]
  | .vals xs, x => .vals (xs ++ [x])

/-- The elements of a slice, in order. -/
def Slice.toList {α : Type} : Slice α → List α
  | .nil => []
  | .vals xs => xs

/-! ## Responses -/

/-- The JSON documents the handlers encode (`encoding/json`). -/
inductive Json where
  | null
  | todoArray (xs : List Todo)
  | todo (t : Todo)
  | loginResponse (session_id : String) (user_id : Int) (email : String)
  deriving DecidableEq

/-- What `json.Marshal` does with a `[]Todo`: a nil slice encodes as the JSON
value `null`, any other slice as a JSON array. -/
def marshalTodos : Slice Todo → Json
  | .nil => .null
  | .vals xs => .todoArray xs

/-- The body of a response. -/
inductive Body where
  | empty
  | text (msg : String)
  | json (v : Json)
  deriving DecidableEq

/-- An HTTP response: status code and body. -/
structure Response where
  status : Nat
  body : Body
  deriving DecidableEq

/-- Go's `http.Error(w, msg, code)`: writes the status and `msg` followed by a
newline. -/
def httpError (msg : String) (code : Nat) : Response :=
  ⟨code, .text (msg ++ "\n")⟩

/-- A response written by `json.NewEncoder(w).Encode(v)` with no prior
`WriteHeader`: status 200. -/
def jsonOK (v : Json) : Response :=
  ⟨200, .json v⟩

/-! ## generateSessionID (main.go, lines 173-177) -/

/-- The constant `hextable` of `encoding/hex`, as the list of its characters. -/
def hextable : List Char :=
  "0123456789abcdef".data

/-- The two characters `hex.Encode` writes for one byte `v`:
`hextable[v>>4]` and `hextable[v&0x0f]`. -/
def hexByte (v : Nat) : List Char :=
  [hextable.getD (v / 16) '0', hextable.getD (v % 16) '0']

/-- Go's `hex.EncodeToString`, on the list of byte values. -/
def hexEncodeToString (src : List Nat) : String :=
  String.mk (src.flatMap hexByte)

/-- The buffer `bytes` after `rand.Read(bytes)`: sixteen bytes, the i-th being
the i-th byte drawn from the random source. -/
def randRead (rand : Fin 16 → Fin 256) : List Nat :=
  (List.finRange 16).map (fun i => (rand i).val)

/-- The function `generateSessionID`, as a function of the sixteen random
bytes it draws. -/
def generateSessionID (rand : Fin 16 → Fin 256) : String :=
  hexEncodeToString (randRead rand)

/-! ## The datastore -/

/-- Modelled from the spec: the declarations of the three tables are missing
from the source. The spec gives the persisted schema as
`users(id, email unique, password_hash, created_at)`,
`sessions(id unique token, user_id, expires_at)` and
`todos(id, user_id, title, completed, created_at)`, with ids unique per table.
The datastore behind the handle `db` is the three tables, each a list of rows
in insertion order, and the two counters `nextUserID` and `nextTodoID` from
which the `INSERT ... RETURNING id` statements draw the ids they return. -/
structure DB where
  users : List User
  sessions : List Session
  todos : List Todo
  nextUserID : Int
  nextTodoID : Int
  deriving DecidableEq

/-- The datastore with empty tables. -/
def DB.empty : DB :=
  ⟨[], [], [], 1, 1⟩

/-- Datastore failures, one flag per statement the handlers run: when a flag is
set, that statement returns an error that is not about the rows (connection
lost, scan failure). -/
structure Faults where
  selectUser : Bool
  insertUser : Bool
  insertSession : Bool
  selectSession : Bool
  queryTodos : Bool
  scanTodo : Bool
  insertTodo : Bool
  deriving DecidableEq

/-- No datastore failure. -/
def Faults.none : Faults :=
  ⟨false, false, false, false, false, false, false⟩

/-- The package `bcrypt`, an external collaborator: `generateFromPassword`
takes the password and the randomness for the salt and returns the hash, or
nothing when it returns an error; `compareHashAndPassword hash password` is
true when the Go function returns a nil error. -/
structure Bcrypt where
  generateFromPassword : String → Nat → Option String
  compareHashAndPassword : String → String → Bool

/-- What a request reads from outside the datastore: the value of each
`time.Now()` call (named by its place in the source), the random bytes, and
the datastore failures. -/
structure Env where
  /-- Reading of `time.Now()` at line 129 (created_at of a new user). -/
  nowUser : Time
  /-- Reading of `time.Now()` at line 150 (session issue time). -/
  nowSession : Time
  /-- Reading of `time.Now()` at line 198 (session check). -/
  nowAuth : Time
  /-- Reading of `time.Now()` at line 255 (created_at of the inserted todo). -/
  nowInsert : Time
  /-- Reading of `time.Now()` at line 264 (CreatedAt of the returned todo). -/
  nowResponse : Time
  /-- The bytes `crypto/rand` delivers to `generateSessionID`. -/
  rand : Fin 16 → Fin 256
  /-- The randomness `bcrypt` draws for the salt. -/
  salt : Nat
  faults : Faults

/-- The anonymous struct `loginReq` (lines 103-106). -/
structure LoginReq where
  Email : String
  Password : String
  deriving DecidableEq

/-- The anonymous struct `todoReq` (lines 239-241). -/
structure TodoReq where
  Title : String
  deriving DecidableEq

/-- An HTTP request as the handlers see it: the method, the value of
`r.Header.Get("Authorization")` (empty when the header is absent), and the
outcome of decoding the JSON body into `loginReq` and into `todoReq`
(nothing when `Decode` returns an error). -/
structure Request where
  method : String
  authorization : String
  loginBody : Option LoginReq
  todoBody : Option TodoReq
  deriving DecidableEq

/-- The calls a handler makes that the properties speak about. -/
inductive Call where
  | bcryptGenerate (password : String)
  | bcryptCompare (hash password : String)
  | generateSessionID
  | getTodos (userID : Int)
  | createTodo (userID : Int)
  deriving DecidableEq

/-- What running a handler yields: the datastore afterwards, the response, and
the calls made, in order. -/
structure Result where
  db : DB
  resp : Response
  calls : List Call
  deriving DecidableEq

/-- Twenty-four hours (`24 * time.Hour`), in nanoseconds. -/
def ttl24h : Int :=
  24 * 3600000000000

/-! ### The SQL statements -/

/-- The statement `SELECT id, email, password_hash FROM todousers WHERE email = $1`
read with `QueryRow`: the first matching row, if any. -/
def selectUserByEmail (users : List User) (email : String) : Option User :=
  users.find? (fun u => u.Email == email)

/-- Modelled from the spec: the declaration of table `todousers` is missing
from the source; the spec has `email unique` and a unique id. The statement
`INSERT INTO todousers (email, password_hash, created_at) VALUES ($1, $2, $3)
RETURNING id` of line 128: fails on a datastore fault or when the email is
present already; otherwise appends the row, its created_at cut to the whole
microsecond, and returns its id. -/
def insertUser (db : DB) (fault : Bool) (email hash : String) (createdAt : Time) :
    Option (DB × Int) :=
  if fault then none
  else if db.users.any (fun u => u.Email == email) then none
  else some ({ db with
    users := db.users ++ [⟨db.nextUserID, email, hash, truncMicro createdAt⟩],
    nextUserID := db.nextUserID + 1 }, db.nextUserID)

/-- Modelled from the spec: the declaration of table `sessions` is missing
from the source; the spec has `id unique token`. The statement
`INSERT INTO sessions (id, user_id, expires_at) VALUES ($1, $2, $3)` of line
152: fails on a datastore fault or when the id is present already; otherwise
appends the row, its expires_at cut to the whole microsecond. -/
def insertSession (db : DB) (fault : Bool) (id : String) (userID : Int) (expiresAt : Time) :
    Option DB :=
  if fault then none
  else if db.sessions.any (fun s => s.ID == id) then none
  else some { db with
    sessions := db.sessions ++ [⟨id, userID, truncMicro expiresAt⟩] }

/-- The statement `SELECT user_id FROM sessions WHERE id = $1 AND expires_at > $2`
read with `QueryRow`: the user_id of the first matching row, if any. The
parameter `$2` reaches the datastore cut to the whole microsecond; against a
stored expires_at, itself whole microseconds, the comparison comes out the
same with `now` as given (`truncMicro_lt_iff`). -/
def selectSessionUser (sessions : List Session) (id : String) (now : Time) : Option Int :=
  (sessions.find? (fun s => s.ID == id && decide (s.ExpiresAt > now))).map (fun s => s.UserID)

/-- The order of `ORDER BY created_at DESC`: `a` may stand before `b` when `a`
is at least as new as `b`. -/
def newerFirst (a b : Todo) : Prop :=
  b.CreatedAt ≤ a.CreatedAt

instance : DecidableRel newerFirst :=
  fun a b => inferInstanceAs (Decidable (b.CreatedAt ≤ a.CreatedAt))

instance : IsTotal Todo newerFirst :=
  ⟨fun a b => Int.le_total b.CreatedAt a.CreatedAt⟩

instance : IsTrans Todo newerFirst :=
  ⟨fun _ _ _ hab hbc => Int.le_trans hbc hab⟩

/-- The statement `SELECT id, title, completed, created_at FROM todos WHERE user_id = $1
ORDER BY created_at DESC`: the rows of the user, newest first. Among rows with
equal created_at SQL leaves the order open; here they keep insertion order. -/
def selectTodos (todos : List Todo) (userID : Int) : List Todo :=
  (todos.filter (fun t => t.UserID == userID)).insertionSort newerFirst

/-- Modelled from the spec: the declaration of table `todos` is missing from
the source; the spec has a unique id. The statement `INSERT INTO todos
(user_id, title, completed, created_at) VALUES ($1, $2, $3, $4) RETURNING id`
of line 254: fails on a datastore fault; otherwise appends the row, its
created_at cut to the whole microsecond, and returns its id. -/
def insertTodo (db : DB) (fault : Bool) (userID : Int) (title : String) (completed : Bool)
    (createdAt : Time) : Option (DB × Int) :=
  if fault then none
  else some ({ db with
    todos := db.todos ++ [⟨db.nextTodoID, userID, title, completed, truncMicro createdAt⟩],
    nextTodoID := db.nextTodoID + 1 }, db.nextTodoID)

/-! ## loginHandler (main.go, lines 88-171) -/

/-- Lines 148-170 of `loginHandler`, reached by both branches: create the
session for `user` and answer with the session id, user id and email. -/
def loginCreateSession (db : DB) (env : Env) (userID : Int) (email : String)
    (calls : List Call) : Result :=
  let sessionID := generateSessionID env.rand
  let expiresAt := env.nowSession + ttl24h
  match insertSession db env.faults.insertSession sessionID userID expiresAt with
  | none => ⟨db, httpError "Failed to create session" 500, calls ++ [.generateSessionID]⟩
  | some db1 =>
    ⟨db1, jsonOK (.loginResponse sessionID userID email), calls ++ [.generateSessionID]⟩

/-- The function `loginHandler`. -/
def loginHandler (bc : Bcrypt) (db : DB) (r : Request) (env : Env) : Result :=
  if r.method = "OPTIONS" then ⟨db, ⟨200, .empty⟩, []⟩
  else if r.method ≠ "POST" then ⟨db, httpError "Method not allowed" 405, []⟩
  else
    match r.loginBody with
    | none => ⟨db, httpError "Invalid JSON" 400, []⟩
    | some loginReq =>
      if env.faults.selectUser then ⟨db, httpError "Database error" 500, []⟩
      else
        match selectUserByEmail db.users loginReq.Email with
        | none =>
          match bc.generateFromPassword loginReq.Password env.salt with
          | none =>
            ⟨db, httpError "Failed to hash password" 500, [.bcryptGenerate loginReq.Password]⟩
          | some hashedPassword =>
            match insertUser db env.faults.insertUser loginReq.Email hashedPassword
                env.nowUser with
            | none =>
              ⟨db, httpError "Failed to create user" 500, [.bcryptGenerate loginReq.Password]⟩
            | some (db1, id) =>
              loginCreateSession db1 env id loginReq.Email [.bcryptGenerate loginReq.Password]
        | some user =>
          if bc.compareHashAndPassword user.PasswordHash loginReq.Password then
            loginCreateSession db env user.ID user.Email
              [.bcryptCompare user.PasswordHash loginReq.Password]
          else
            ⟨db, httpError "Invalid credentials" 401,
              [.bcryptCompare user.PasswordHash loginReq.Password]⟩

/-! ## todosHandler, getTodos, createTodo (main.go, lines 179-268) -/

/-- The loop of `getTodos` (lines 223-232) over the rows of the query: each
row is scanned into a `Todo` whose `UserID` is the argument `userID`, and
appended; a scan error ends the request. -/
def getTodosLoop (scanFault : Bool) (userID : Int) : List Todo → Slice Todo → Option (Slice Todo)
  | [], todos => some todos
  | row :: rows, todos =>
    if scanFault then none
    else
      getTodosLoop scanFault userID rows
        (todos.append ⟨row.ID, userID, row.Title, row.Completed, row.CreatedAt⟩)

/-- The function `getTodos`. -/
def getTodos (db : DB) (env : Env) (userID : Int) : Result :=
  if env.faults.queryTodos then
    ⟨db, httpError "Failed to fetch todos" 500, [.getTodos userID]⟩
  else
    match getTodosLoop env.faults.scanTodo userID (selectTodos db.todos userID) .nil with
    | none => ⟨db, httpError "Failed to scan todo" 500, [.getTodos userID]⟩
    | some todos => ⟨db, jsonOK (marshalTodos todos), [.getTodos userID]⟩

/-- The function `createTodo`. -/
def createTodo (db : DB) (r : Request) (env : Env) (userID : Int) : Result :=
  match r.todoBody with
  | none => ⟨db, httpError "Invalid JSON" 400, [.createTodo userID]⟩
  | some todoReq =>
    if todoReq.Title = "" then ⟨db, httpError "Title is required" 400, [.createTodo userID]⟩
    else
      match insertTodo db env.faults.insertTodo userID todoReq.Title false env.nowInsert with
      | none => ⟨db, httpError "Failed to create todo" 500, [.createTodo userID]⟩
      | some (db1, id) =>
        ⟨db1, jsonOK (.todo ⟨id, userID, todoReq.Title, false, env.nowResponse⟩),
          [.createTodo userID]⟩

/-- The authentication step of `todosHandler` (lines 189-202): the response
that ends the request, or the user id the request goes on with. -/
def todosAuth (db : DB) (r : Request) (env : Env) : Except Response Int :=
  let sessionID := r.authorization
  if sessionID = "" then .error (httpError "Missing authorization header" 401)
  else
    match (if env.faults.selectSession then none
           else selectSessionUser db.sessions sessionID env.nowAuth) with
    | none => .error (httpError "Invalid or expired session" 401)
    | some userID => .ok userID

/-- The method switch of `todosHandler` (lines 204-211), run with the user id
the authentication step found. -/
def todosSwitch (db : DB) (r : Request) (env : Env) (userID : Int) : Result :=
  if r.method = "GET" then getTodos db env userID
  else if r.method = "POST" then createTodo db r env userID
  else ⟨db, httpError "Method not allowed" 405, []⟩

/-- The function `todosHandler`. -/
def todosHandler (db : DB) (r : Request) (env : Env) : Result :=
  if r.method = "OPTIONS" then ⟨db, ⟨200, .empty⟩, []⟩
  else
    match todosAuth db r env with
    | .error resp => ⟨db, resp, []⟩
    | .ok userID => todosSwitch db r env userID

/-! ## Routing (main.go, lines 62-86) -/

/-- Go's `http.NotFoundHandler()`. -/
def notFound (db : DB) (_r : Request) : Result :=
  ⟨db, httpError "404 page not found" 404, []⟩

/-- The function `corsMiddleware`: answers an OPTIONS request itself and hands
every other request to `next`. -/
def corsMiddleware (next : DB → Request → Result) (db : DB) (r : Request) : Result :=
  if r.method = "OPTIONS" then ⟨db, ⟨200, .empty⟩, []⟩
  else next db r

/-- The default `ServeMux` with the three patterns registered in `main`:
`/login`, `/todos`, and `/` for every other path. -/
def serve (bc : Bcrypt) (db : DB) (path : String) (r : Request) (env : Env) : Result :=
  if path = "/login" then loginHandler bc db r env
  else if path = "/todos" then todosHandler db r env
  else corsMiddleware notFound db r

/-- A request on the wire: path, request and the environment it runs in. -/
structure Incoming where
  path : String
  req : Request
  env : Env

/-- One served request, for the history of a run: the datastore before, the
request, and the result. -/
structure Event where
  pre : DB
  inc : Incoming
  out : Result

/-- Serve the requests one after the other from `db`; returns the history,
oldest first. -/
def run (bc : Bcrypt) : DB → List Incoming → List Event
  | _, [] => []
  | db, inc :: rest =>
    let out := serve bc db inc.path inc.req inc.env
    ⟨db, inc, out⟩ :: run bc out.db rest

/-- The datastore after serving the requests from `db`. -/
def runDB (bc : Bcrypt) : DB → List Incoming → DB
  | db, [] => db
  | db, inc :: rest => runDB bc (serve bc db inc.path inc.req inc.env).db rest

/-- The event is a list-todos request authenticated as user `u`: a GET on
`/todos` whose authentication step found `u`. -/
def Event.listsAs (e : Event) (u : Int) : Prop :=
  e.inc.path = "/todos" ∧ e.inc.req.method = "GET" ∧
    todosAuth e.pre e.inc.req e.inc.env = .ok u

/-- The event is a create-todo request authenticated as user `u`: a POST on
`/todos` whose authentication step found `u`. -/
def Event.createsAs (e : Event) (u : Int) : Prop :=
  e.inc.path = "/todos" ∧ e.inc.req.method = "POST" ∧
    todosAuth e.pre e.inc.req e.inc.env = .ok u

/-- The event inserted the todo row `row`. -/
def Event.inserts (e : Event) (row : Todo) : Prop :=
  e.out.db.todos = e.pre.todos ++ [row]

/-! ## Sample inputs -/

/-- A stand-in for `bcrypt` used in the examples: the hash of a password is
the password behind the prefix `h:`. -/
def sampleBcrypt : Bcrypt :=
  ⟨fun password _ => some ("h:" ++ password), fun hash password => hash == "h:" ++ password⟩

/-- An environment where every clock reading is `t`, every random byte is
`0xab` and the datastore does not fail. -/
def sampleEnv (t : Time) : Env :=
  ⟨t, t, t, t, t, fun _ => 171, 0, Faults.none⟩

/-- The token `generateSessionID` returns in `sampleEnv`. -/
def sampleToken : String :=
  "abababababababababababababababab"

/-- A datastore with one user, one session of that user expiring at 100 µs,
and two todos. -/
def sampleDB : DB :=
  ⟨[⟨1, "a@x.com", "h:pw1", 0⟩], [⟨sampleToken, 1, 100000⟩],
   [⟨1, 1, "buy milk", false, 5000⟩, ⟨2, 1, "walk", false, 7000⟩], 2, 3⟩

/-- A `GET /todos` request carrying `token`. -/
def getReq (token : String) : Request :=
  ⟨"GET", token, none, none⟩

/-- A `POST /todos` request carrying `token` and the title `title`. -/
def postReq (token title : String) : Request :=
  ⟨"POST", token, none, some ⟨title⟩⟩

/-- A `POST /login` request. -/
def loginReq (email password : String) : Request :=
  ⟨"POST", "", some ⟨email, password⟩, none⟩

/-- An environment like `sampleEnv t` whose random bytes are all `0xcd`. -/
def sampleEnv2 (t : Time) : Env :=
  ⟨t, t, t, t, t, fun _ => 205, 0, Faults.none⟩

/-- The token `generateSessionID` returns in `sampleEnv2`. -/
def sampleToken2 : String :=
  "cdcdcdcdcdcdcdcdcdcdcdcdcdcdcdcd"

/-- Two users log in, each creates a todo, then the second lists the todos. -/
def sampleRun : List Incoming :=
  [⟨"/login", loginReq "a@x.com" "pw1", sampleEnv 10000⟩,
   ⟨"/login", loginReq "b@x.com" "pw2", sampleEnv2 11000⟩,
   ⟨"/todos", postReq sampleToken "buy milk", sampleEnv 20000⟩,
   ⟨"/todos", postReq sampleToken2 "walk", sampleEnv 30000⟩,
   ⟨"/todos", getReq sampleToken2, sampleEnv 40000⟩]

/-! # Theorems -/

/-! ## Hex encoding -/

theorem hexDigit_range (k : Nat) (hk : k < 16) :
    (48 ≤ (hextable.getD k '0').toNat ∧ (hextable.getD k '0').toNat ≤ 57) ∨
    (97 ≤ (hextable.getD k '0').toNat ∧ (hextable.getD k '0').toNat ≤ 102) := by
  interval_cases k <;> decide

theorem hexDigit_inj (j k : Nat) (hj : j < 16) (hk : k < 16)
    (h : hextable.getD j '0' = hextable.getD k '0') : j = k := by
  interval_cases j <;> interval_cases k <;> first | rfl | (exact absurd h (by decide))

theorem hexByte_inj (a b : Nat) (ha : a < 256) (hb : b < 256) (h : hexByte a = hexByte b) :
    a = b := by
  simp only [hexByte, List.cons.injEq, and_true] at h
  have h1 := hexDigit_inj (a / 16) (b / 16) (by omega) (by omega) h.1
  have h2 := hexDigit_inj (a % 16) (b % 16) (by omega) (by omega) h.2
  omega

theorem flatMap_hexByte_length (src : List Nat) : (src.flatMap hexByte).length = 2 * src.length := by
  induction src with
  | nil => rfl
  | cons a rest ih => simp only [List.flatMap_cons, List.length_append, ih, hexByte, List.length_cons, List.length_nil]; omega

theorem flatMap_hexByte_inj : ∀ (xs ys : List Nat), (∀ x ∈ xs, x < 256) → (∀ y ∈ ys, y < 256) →
    xs.flatMap hexByte = ys.flatMap hexByte → xs = ys
  | [], [], _, _, _ => rfl
  | [], y :: ys, _, _, h => by simp [hexByte] at h
  | x :: xs, [], _, _, h => by simp [hexByte] at h
  | x :: xs, y :: ys, hx, hy, h => by
    have hx0 : x < 256 := hx x (List.mem_cons_self _ _)
    have hy0 : y < 256 := hy y (List.mem_cons_self _ _)
    simp only [List.flatMap_cons, hexByte, List.cons_append, List.nil_append, List.cons.injEq] at h
    obtain ⟨h1, h2, h3⟩ := h
    have hxy : x = y := hexByte_inj x y hx0 hy0 (by simp only [hexByte, h1, h2])
    have ih := flatMap_hexByte_inj xs ys (fun a ha => hx a (List.mem_cons_of_mem _ ha))
      (fun a ha => hy a (List.mem_cons_of_mem _ ha)) h3
    rw [hxy, ih]

theorem flatMap_hexByte_range (src : List Nat) (hsrc : ∀ x ∈ src, x < 256) :
    ∀ c ∈ src.flatMap hexByte,
      (48 ≤ c.toNat ∧ c.toNat ≤ 57) ∨ (97 ≤ c.toNat ∧ c.toNat ≤ 102) := by
  intro c hc
  rw [List.mem_flatMap] at hc
  obtain ⟨v, hv, hcv⟩ := hc
  have hv256 := hsrc v hv
  simp only [hexByte, List.mem_cons, List.mem_singleton, List.not_mem_nil, or_false] at hcv
  rcases hcv with h | h
  · rw [h]; exact hexDigit_range _ (by omega)
  · rw [h]; exact hexDigit_range _ (by omega)

theorem randRead_lt (rand : Fin 16 → Fin 256) : ∀ x ∈ randRead rand, x < 256 := by
  intro x hx
  simp only [randRead, List.mem_map] at hx
  obtain ⟨i, _, rfl⟩ := hx
  exact (rand i).isLt

theorem randRead_length (rand : Fin 16 → Fin 256) : (randRead rand).length = 16 := by
  simp [randRead]

theorem randRead_inj (r1 r2 : Fin 16 → Fin 256) (h : randRead r1 = randRead r2) : r1 = r2 := by
  funext i
  simp only [randRead] at h
  have := (List.map_inj_left.mp h) i (List.mem_finRange i)
  exact Fin.ext this

theorem generateSessionID_length (rand : Fin 16 → Fin 256) :
    (generateSessionID rand).length = 32 := by
  simp only [generateSessionID, hexEncodeToString, String.length, flatMap_hexByte_length,
    randRead_length]

theorem generateSessionID_ne_empty (rand : Fin 16 → Fin 256) : generateSessionID rand ≠ "" := by
  intro h
  have := generateSessionID_length rand
  rw [h] at this
  exact absurd this (by decide)

/-- C10: `generateSessionID` is the hex encoding of the sixteen random bytes it
draws; every token has exactly 32 characters, each in `0-9` or `a-f`, and
distinct sixteen-byte inputs give distinct tokens. -/
theorem generateSessionID_hex_injective :
    (∀ rand : Fin 16 → Fin 256,
      generateSessionID rand
          = hexEncodeToString ((List.finRange 16).map (fun i => (rand i).val)) ∧
      (generateSessionID rand).length = 32 ∧
      ∀ c ∈ (generateSessionID rand).data,
        (48 ≤ c.toNat ∧ c.toNat ≤ 57) ∨ (97 ≤ c.toNat ∧ c.toNat ≤ 102)) ∧
    Function.Injective generateSessionID := by
  refine ⟨fun rand => ⟨rfl, generateSessionID_length rand, ?_⟩, ?_⟩
  · exact flatMap_hexByte_range _ (randRead_lt rand)
  · intro r1 r2 h
    have hdata := congrArg String.data h
    exact randRead_inj r1 r2
      (flatMap_hexByte_inj _ _ (randRead_lt r1) (randRead_lt r2) hdata)

/-! ## Session lookup -/

theorem eq_of_ID_eq_of_pairwise : ∀ (l : List Session),
    l.Pairwise (fun a b => a.ID ≠ b.ID) → ∀ a ∈ l, ∀ b ∈ l, a.ID = b.ID → a = b
  | [], _, a, ha, _, _, _ => by cases ha
  | x :: xs, hp, a, ha, b, hb, hab => by
    rw [List.pairwise_cons] at hp
    rcases List.mem_cons.mp ha with rfl | ha'
    · rcases List.mem_cons.mp hb with rfl | hb'
      · rfl
      · exact absurd hab (hp.1 b hb')
    · rcases List.mem_cons.mp hb with rfl | hb'
      · exact absurd hab.symm (hp.1 a ha')
      · exact eq_of_ID_eq_of_pairwise xs hp.2 a ha' b hb' hab

theorem selectSessionUser_some_imp (sessions : List Session) (id : String) (now : Time) (u : Int)
    (h : selectSessionUser sessions id now = some u) :
    ∃ s ∈ sessions, s.ID = id ∧ s.UserID = u ∧ now < s.ExpiresAt := by
  simp only [selectSessionUser, Option.map_eq_some'] at h
  obtain ⟨s, hs, hu⟩ := h
  have hmem := List.mem_of_find?_eq_some hs
  have hp := List.find?_some hs
  simp only [Bool.and_eq_true, beq_iff_eq, decide_eq_true_eq] at hp
  exact ⟨s, hmem, hp.1, hu, hp.2⟩

theorem selectSessionUser_none_iff (sessions : List Session) (id : String) (now : Time) :
    selectSessionUser sessions id now = none ↔
      ¬ ∃ s ∈ sessions, s.ID = id ∧ now < s.ExpiresAt := by
  simp only [selectSessionUser, Option.map_eq_none', List.find?_eq_none, Bool.and_eq_true,
    beq_iff_eq, decide_eq_true_eq, not_exists, not_and]

theorem selectSessionUser_of_mem (sessions : List Session) (id : String) (now : Time)
    (huniq : sessions.Pairwise (fun a b => a.ID ≠ b.ID))
    (s : Session) (hs : s ∈ sessions) (hid : s.ID = id) (hlt : now < s.ExpiresAt) :
    selectSessionUser sessions id now = some s.UserID := by
  cases hsel : selectSessionUser sessions id now with
  | none =>
    exact absurd ⟨s, hs, hid, hlt⟩ ((selectSessionUser_none_iff sessions id now).mp hsel)
  | some u =>
    obtain ⟨s', hs', hid', hu', _⟩ := selectSessionUser_some_imp sessions id now u hsel
    have : s' = s := eq_of_ID_eq_of_pairwise sessions huniq s' hs' s hs (hid'.trans hid.symm)
    rw [← hu', this]

/-- C1: for a non-OPTIONS request with a non-empty Authorization header `token`
checked at time `now`: the authentication step goes on with user id `u` only
if the session table holds a row `(token, u, expires_at)` with
`now < expires_at`, and, when the ids of the table are unique and the query
runs, whenever it holds such a row; going on with `u` means running the method
switch with `u`; and when no row has that id and a later expiry, the request
ends with 401 and the datastore untouched, and neither `getTodos` nor
`createTodo` is called. -/
theorem todosHandler_authenticates (db : DB) (r : Request) (env : Env)
    (hm : r.method ≠ "OPTIONS") (ha : r.authorization ≠ "") :
    (∀ u, todosAuth db r env = .ok u →
        ∃ s ∈ db.sessions, s.ID = r.authorization ∧ s.UserID = u ∧ env.nowAuth < s.ExpiresAt) ∧
    (db.sessions.Pairwise (fun a b => a.ID ≠ b.ID) → env.faults.selectSession = false →
      ∀ u, (∃ s ∈ db.sessions, s.ID = r.authorization ∧ s.UserID = u ∧
              env.nowAuth < s.ExpiresAt) →
        todosAuth db r env = .ok u) ∧
    (∀ u, todosAuth db r env = .ok u → todosHandler db r env = todosSwitch db r env u) ∧
    ((¬ ∃ s ∈ db.sessions, s.ID = r.authorization ∧ env.nowAuth < s.ExpiresAt) →
      todosAuth db r env = .error (httpError "Invalid or expired session" 401) ∧
      todosHandler db r env = ⟨db, httpError "Invalid or expired session" 401, []⟩ ∧
      (todosHandler db r env).resp.status = 401 ∧
      ∀ u, Call.getTodos u ∉ (todosHandler db r env).calls ∧
           Call.createTodo u ∉ (todosHandler db r env).calls) := by
  refine ⟨?_, ?_, ?_, ?_⟩
  · intro u h
    simp only [todosAuth, ha, if_false] at h
    cases hf : env.faults.selectSession with
    | true => simp [hf] at h
    | false =>
      simp only [hf, Bool.false_eq_true, if_false] at h
      cases hsel : selectSessionUser db.sessions r.authorization env.nowAuth with
      | none => simp [hsel] at h
      | some v =>
        simp only [hsel, Except.ok.injEq] at h
        subst h
        exact selectSessionUser_some_imp _ _ _ _ hsel
  · rintro huniq hf u ⟨s, hs, hid, hu, hlt⟩
    simp only [todosAuth, ha, if_false, hf, Bool.false_eq_true,
      selectSessionUser_of_mem db.sessions r.authorization env.nowAuth huniq s hs hid hlt, hu]
  · intro u h
    simp only [todosHandler, hm, if_false, h]
  · intro hno
    have hsel := (selectSessionUser_none_iff db.sessions r.authorization env.nowAuth).mpr hno
    have hauth : todosAuth db r env = .error (httpError "Invalid or expired session" 401) := by
      simp only [todosAuth, ha, if_false, hsel, ite_self]
    have hh : todosHandler db r env = ⟨db, httpError "Invalid or expired session" 401, []⟩ := by
      simp only [todosHandler, hm, if_false, hauth]
    refine ⟨hauth, hh, ?_, ?_⟩
    · rw [hh]; rfl
    · intro u; rw [hh]; simp

/-- Witness of C1 on the sample datastore: the sample token resolves to user 1
at time 50 µs, and is rejected at time 100 µs. -/
theorem todosHandler_authenticates_witness :
    todosAuth sampleDB (getReq sampleToken) (sampleEnv 50000) = .ok 1 ∧
    todosHandler sampleDB (getReq sampleToken) (sampleEnv 100000)
      = ⟨sampleDB, httpError "Invalid or expired session" 401, []⟩ :=
  ⟨(todosHandler_authenticates sampleDB (getReq sampleToken) (sampleEnv 50000)
      (by decide) (by decide)).2.1 (by decide) rfl 1
      ⟨⟨sampleToken, 1, 100000⟩, by decide, rfl, rfl, by decide⟩,
   ((todosHandler_authenticates sampleDB (getReq sampleToken) (sampleEnv 100000)
      (by decide) (by decide)).2.2.2 (by decide)).2.1⟩

/-! ## Login -/

theorem selectUserByEmail_none_iff (users : List User) (email : String) :
    selectUserByEmail users email = none ↔ ∀ u ∈ users, u.Email ≠ email := by
  simp only [selectUserByEmail, List.find?_eq_none, beq_iff_eq]

theorem selectUserByEmail_some_imp (users : List User) (email : String) (user : User)
    (h : selectUserByEmail users email = some user) : user ∈ users ∧ user.Email = email := by
  simp only [selectUserByEmail] at h
  have hp := List.find?_some h
  simp only [beq_iff_eq] at hp
  exact ⟨List.mem_of_find?_eq_some h, hp⟩

/-- C2: a login request (POST, decodable body, user lookup runs) whose email is
the email of some user record, and whose password verifies against the stored
hash of no record with that email, gets 401 and leaves the datastore as it
was: no session row and no user row is inserted or modified. -/
theorem loginHandler_wrong_password (bc : Bcrypt) (db : DB) (r : Request) (env : Env)
    (email password : String)
    (hm : r.method = "POST") (hb : r.loginBody = some ⟨email, password⟩)
    (hq : env.faults.selectUser = false)
    (hex : ∃ u ∈ db.users, u.Email = email)
    (hpw : ∀ u ∈ db.users, u.Email = email →
      bc.compareHashAndPassword u.PasswordHash password = false) :
    (loginHandler bc db r env).resp = httpError "Invalid credentials" 401 ∧
    (loginHandler bc db r env).resp.status = 401 ∧
    (loginHandler bc db r env).db = db := by
  cases hsel : selectUserByEmail db.users email with
  | none =>
    obtain ⟨u, hu, he⟩ := hex
    exact absurd he ((selectUserByEmail_none_iff db.users email).mp hsel u hu)
  | some user =>
    obtain ⟨hmem, hmail⟩ := selectUserByEmail_some_imp db.users email user hsel
    have hcmp := hpw user hmem hmail
    have hpo : ¬ ("POST" = "OPTIONS") := by decide
    simp only [loginHandler, hm, hpo, if_false, ne_eq, not_true_eq_false, hb, hq,
      Bool.false_eq_true, hsel, hcmp, and_self, httpError]

/-- Witness of C2 on the sample datastore: the user `a@x.com` logging in with
the password `wrong`. -/
theorem loginHandler_wrong_password_witness :
    (loginHandler sampleBcrypt sampleDB (loginReq "a@x.com" "wrong") (sampleEnv 10000)).resp
      = httpError "Invalid credentials" 401 ∧
    (loginHandler sampleBcrypt sampleDB (loginReq "a@x.com" "wrong") (sampleEnv 10000)).resp.status
      = 401 ∧
    (loginHandler sampleBcrypt sampleDB (loginReq "a@x.com" "wrong") (sampleEnv 10000)).db
      = sampleDB :=
  loginHandler_wrong_password sampleBcrypt sampleDB (loginReq "a@x.com" "wrong") (sampleEnv 10000)
    "a@x.com" "wrong" rfl rfl rfl ⟨⟨1, "a@x.com", "h:pw1", 0⟩, by decide, rfl⟩ (by decide)

/-- C3: a login request (POST, decodable body, user lookup runs) whose email is
the email of no user record, when hashing succeeds with `hash` and both inserts
succeed (no datastore fault, session id not taken): appends exactly one user
row, with that email and `hash` as password_hash, appends one session row for
the new user id, answers with that id, and the calls made include no password
comparison. -/
theorem loginHandler_provisions_unknown_email (bc : Bcrypt) (db : DB) (r : Request) (env : Env)
    (email password hash : String)
    (hm : r.method = "POST") (hb : r.loginBody = some ⟨email, password⟩)
    (hq : env.faults.selectUser = false)
    (hnew : ∀ u ∈ db.users, u.Email ≠ email)
    (hhash : bc.generateFromPassword password env.salt = some hash)
    (hiu : env.faults.insertUser = false)
    (his : env.faults.insertSession = false)
    (hfresh : ∀ s ∈ db.sessions, s.ID ≠ generateSessionID env.rand) :
    (loginHandler bc db r env).db.users
      = db.users ++ [⟨db.nextUserID, email, hash, truncMicro env.nowUser⟩] ∧
    (loginHandler bc db r env).db.sessions
      = db.sessions ++
          [⟨generateSessionID env.rand, db.nextUserID, truncMicro (env.nowSession + ttl24h)⟩] ∧
    (loginHandler bc db r env).db.todos = db.todos ∧
    (loginHandler bc db r env).resp
      = jsonOK (.loginResponse (generateSessionID env.rand) db.nextUserID email) ∧
    (∀ h p, Call.bcryptCompare h p ∉ (loginHandler bc db r env).calls) := by
  have hsel := (selectUserByEmail_none_iff db.users email).mpr hnew
  have hany : db.users.any (fun u => u.Email == email) = false := by
    rw [List.any_eq_false]
    intro u hu
    simpa using hnew u hu
  have hany2 : db.sessions.any (fun s => s.ID == generateSessionID env.rand) = false := by
    rw [List.any_eq_false]
    intro s hs
    simpa using hfresh s hs
  have hpo : ¬ ("POST" = "OPTIONS") := by decide
  simp [loginHandler, hpo, hm, hb, hq, hsel, hhash, insertUser, hiu, hany, loginCreateSession,
    insertSession, his, hany2, jsonOK]

/-- Witness of C3: the first login of `a@x.com` on the empty datastore. -/
theorem loginHandler_provisions_unknown_email_witness :
    (loginHandler sampleBcrypt DB.empty (loginReq "a@x.com" "pw1") (sampleEnv 10000)).db.users
      = [⟨1, "a@x.com", "h:pw1", 10000⟩] ∧
    (loginHandler sampleBcrypt DB.empty (loginReq "a@x.com" "pw1") (sampleEnv 10000)).resp
      = jsonOK (.loginResponse (generateSessionID (sampleEnv 10000).rand) 1 "a@x.com") :=
  have h := loginHandler_provisions_unknown_email sampleBcrypt DB.empty
    (loginReq "a@x.com" "pw1") (sampleEnv 10000) "a@x.com" "pw1" "h:pw1" rfl rfl rfl
    (by decide) rfl rfl rfl (by decide)
  ⟨h.1, h.2.2.2.1⟩

/-! ## Todos -/

/-- C6, as stated, fails: a create-todo request whose title is three blanks
(whitespace only) is answered 200 and its row is inserted. -/
theorem createTodo_blank_title_inserted :
    ("   ".data.all Char.isWhitespace = true) ∧
    (createTodo sampleDB (postReq sampleToken "   ") (sampleEnv 50000) 1).resp.status = 200 ∧
    (createTodo sampleDB (postReq sampleToken "   ") (sampleEnv 50000) 1).db.todos
      = sampleDB.todos ++ [⟨3, 1, "   ", false, 50000⟩] := by
  decide

/-- C6, amended: a create-todo request with a decodable body is answered 400
exactly when its title is the empty string, and then no todo row is inserted
(the datastore is as before). -/
theorem createTodo_empty_title (db : DB) (r : Request) (env : Env) (userID : Int)
    (title : String) (hb : r.todoBody = some ⟨title⟩) :
    ((createTodo db r env userID).resp.status = 400 ↔ title = "") ∧
    (title = "" →
      (createTodo db r env userID).resp = httpError "Title is required" 400 ∧
      (createTodo db r env userID).db = db) := by
  by_cases ht : title = ""
  · simp [createTodo, hb, ht, httpError]
  · cases hf : env.faults.insertTodo <;>
      simp [createTodo, hb, ht, httpError, insertTodo, hf, jsonOK]

/-- Witness of the amended C6: the empty title on the sample datastore. -/
theorem createTodo_empty_title_witness :
    (createTodo sampleDB (postReq sampleToken "") (sampleEnv 50000) 1).resp
      = httpError "Title is required" 400 ∧
    (createTodo sampleDB (postReq sampleToken "") (sampleEnv 50000) 1).db = sampleDB :=
  (createTodo_empty_title sampleDB (postReq sampleToken "") (sampleEnv 50000) 1 "" rfl).2 rfl

/-- C8, as stated, fails: on the empty datastore a GET with no Authorization
header and a GET with an unknown token both get 401, with different bodies. -/
theorem missing_and_unknown_token_bodies_differ :
    (todosHandler DB.empty (getReq "") (sampleEnv 50000)).resp.status = 401 ∧
    (todosHandler DB.empty (getReq "deadbeef") (sampleEnv 50000)).resp.status = 401 ∧
    (todosHandler DB.empty (getReq "") (sampleEnv 50000)).resp.body
      ≠ (todosHandler DB.empty (getReq "deadbeef") (sampleEnv 50000)).resp.body := by
  decide

/-- C8, amended: in every state, a GET with no Authorization header and a GET
with a token that is in no session row both get status 401 and leave the
datastore as it was; the bodies are the fixed texts
`Missing authorization header` and `Invalid or expired session`, the same for
every state and every such token. -/
theorem todosHandler_unauthorized (db : DB) (env : Env) (r1 r2 : Request)
    (hm1 : r1.method = "GET") (hm2 : r2.method = "GET")
    (h1 : r1.authorization = "") (h2 : r2.authorization ≠ "")
    (hunknown : ∀ s ∈ db.sessions, s.ID ≠ r2.authorization) :
    todosHandler db r1 env = ⟨db, httpError "Missing authorization header" 401, []⟩ ∧
    todosHandler db r2 env = ⟨db, httpError "Invalid or expired session" 401, []⟩ ∧
    (todosHandler db r1 env).resp.status = 401 ∧
    (todosHandler db r2 env).resp.status = 401 := by
  have hg : ¬ ("GET" = "OPTIONS") := by decide
  have hsel : selectSessionUser db.sessions r2.authorization env.nowAuth = none := by
    rw [selectSessionUser_none_iff]
    rintro ⟨s, hs, hid, _⟩
    exact hunknown s hs hid
  have e1 : todosHandler db r1 env = ⟨db, httpError "Missing authorization header" 401, []⟩ := by
    simp only [todosHandler, hm1, hg, if_false, todosAuth, h1, if_true]
  have e2 : todosHandler db r2 env = ⟨db, httpError "Invalid or expired session" 401, []⟩ := by
    simp only [todosHandler, hm2, hg, if_false, todosAuth, h2, hsel, ite_self]
  refine ⟨e1, e2, ?_, ?_⟩
  · rw [e1]; rfl
  · rw [e2]; rfl

/-- Witness of the amended C8 on the sample datastore. -/
theorem todosHandler_unauthorized_witness :
    todosHandler sampleDB (getReq "") (sampleEnv 50000)
      = ⟨sampleDB, httpError "Missing authorization header" 401, []⟩ ∧
    todosHandler sampleDB (getReq "deadbeef") (sampleEnv 50000)
      = ⟨sampleDB, httpError "Invalid or expired session" 401, []⟩ :=
  have h := todosHandler_unauthorized sampleDB (sampleEnv 50000) (getReq "") (getReq "deadbeef")
    rfl rfl rfl (by decide) (by decide)
  ⟨h.1, h.2.1⟩

/-- C9 at a failing input: `a@x.com` logs in for the first time on the empty
datastore and then lists the todos with the token of the login response; the
answer is 200 with the JSON value `null` as the body, not the empty array. -/
theorem getTodos_no_todos_null :
    (loginHandler sampleBcrypt DB.empty (loginReq "a@x.com" "pw1") (sampleEnv 10000)).resp
      = jsonOK (.loginResponse sampleToken 1 "a@x.com") ∧
    (todosHandler
        (loginHandler sampleBcrypt DB.empty (loginReq "a@x.com" "pw1") (sampleEnv 10000)).db
        (getReq sampleToken) (sampleEnv 20000)).resp
      = ⟨200, .json .null⟩ ∧
    Body.json Json.null ≠ Body.json (Json.todoArray []) := by
  decide

theorem selectTodos_perm (todos : List Todo) (userID : Int) :
    (selectTodos todos userID).Perm (todos.filter (fun t => t.UserID == userID)) :=
  List.perm_insertionSort _ _

theorem selectTodos_sorted (todos : List Todo) (userID : Int) :
    (selectTodos todos userID).Sorted newerFirst :=
  List.sorted_insertionSort _ _

theorem selectTodos_mem (todos : List Todo) (userID : Int) (t : Todo) :
    t ∈ selectTodos todos userID ↔ t ∈ todos ∧ t.UserID = userID := by
  rw [(selectTodos_perm todos userID).mem_iff, List.mem_filter, beq_iff_eq]

theorem getTodosLoop_ok (userID : Int) : ∀ (rows : List Todo) (acc : Slice Todo),
    (∀ row ∈ rows, row.UserID = userID) →
    ∃ todos, getTodosLoop false userID rows acc = some todos ∧
      todos.toList = acc.toList ++ rows ∧ (rows = [] → todos = acc)
  | [], acc, _ => ⟨acc, rfl, by simp, fun _ => rfl⟩
  | row :: rows, acc, h => by
    have hrow : row.UserID = userID := h row (List.mem_cons_self _ _)
    obtain ⟨todos, h1, h2, _⟩ := getTodosLoop_ok userID rows
      (acc.append ⟨row.ID, userID, row.Title, row.Completed, row.CreatedAt⟩)
      (fun x hx => h x (List.mem_cons_of_mem _ hx))
    refine ⟨todos, ?_, ?_, fun hnil => by cases hnil⟩
    · simp only [getTodosLoop, Bool.false_eq_true, if_false, h1]
    · rw [h2]
      have hscan : (⟨row.ID, userID, row.Title, row.Completed, row.CreatedAt⟩ : Todo) = row := by
        rw [← hrow]
      rw [hscan]
      cases acc <;> simp [Slice.append, Slice.toList]

/-- With no datastore fault, `getTodos` answers 200 with the encoding of the
slice holding the selected rows. -/
theorem getTodos_ok (db : DB) (env : Env) (userID : Int)
    (hq : env.faults.queryTodos = false) (hs : env.faults.scanTodo = false) :
    ∃ todos : Slice Todo,
      getTodos db env userID = ⟨db, jsonOK (marshalTodos todos), [.getTodos userID]⟩ ∧
      todos.toList = selectTodos db.todos userID ∧
      (selectTodos db.todos userID = [] → todos = .nil) := by
  obtain ⟨todos, h1, h2, h3⟩ := getTodosLoop_ok userID (selectTodos db.todos userID) .nil
    (fun row hrow => ((selectTodos_mem db.todos userID row).mp hrow).2)
  refine ⟨todos, ?_, ?_, h3⟩
  · simp only [getTodos, hq, Bool.false_eq_true, if_false, hs, h1]
  · simpa [Slice.toList] using h2

/-- For a user that owns no todos, and with no datastore fault, `getTodos`
answers 200 with the JSON value `null`. -/
theorem getTodos_of_no_todos (db : DB) (env : Env) (userID : Int)
    (hq : env.faults.queryTodos = false)
    (hnone : ∀ t ∈ db.todos, t.UserID ≠ userID) :
    (getTodos db env userID).resp = ⟨200, .json .null⟩ := by
  have hsel : selectTodos db.todos userID = [] := by
    rw [List.eq_nil_iff_forall_not_mem]
    intro t ht
    have := (selectTodos_mem db.todos userID t).mp ht
    exact hnone t this.1 this.2
  simp [getTodos, hq, hsel, getTodosLoop, marshalTodos, jsonOK]

/-- C7: with no datastore fault, `getTodos` answers with the encoding of a
slice whose elements are exactly the todos of the table with user_id equal to
`userID` (a permutation of them: each once, none missing, none of another
user), in non-increasing order of created_at, and leaves the datastore as it
was. -/
theorem getTodos_lists_user_todos (db : DB) (env : Env) (userID : Int)
    (hq : env.faults.queryTodos = false) (hs : env.faults.scanTodo = false) :
    ∃ todos : Slice Todo,
      (getTodos db env userID).resp = jsonOK (marshalTodos todos) ∧
      todos.toList.Perm (db.todos.filter (fun t => decide (t.UserID = userID))) ∧
      (∀ t, t ∈ todos.toList ↔ t ∈ db.todos ∧ t.UserID = userID) ∧
      todos.toList.Pairwise (fun a b => b.CreatedAt ≤ a.CreatedAt) ∧
      (getTodos db env userID).db = db := by
  obtain ⟨todos, h1, h2, _⟩ := getTodos_ok db env userID hq hs
  refine ⟨todos, by rw [h1], ?_, ?_, ?_, by rw [h1]⟩
  · rw [h2]
    have := selectTodos_perm db.todos userID
    simpa using this
  · intro t; rw [h2]; exact selectTodos_mem db.todos userID t
  · rw [h2]; exact selectTodos_sorted db.todos userID

/-- Witness of C7 on the sample datastore: user 1 gets both todos, the newer
one first. -/
theorem getTodos_lists_user_todos_witness :
    (getTodos sampleDB (sampleEnv 50000) 1).resp
      = jsonOK (.todoArray [⟨2, 1, "walk", false, 7000⟩, ⟨1, 1, "buy milk", false, 5000⟩]) ∧
    ∃ todos : Slice Todo,
      (getTodos sampleDB (sampleEnv 50000) 1).resp = jsonOK (marshalTodos todos) ∧
      todos.toList.Perm (sampleDB.todos.filter (fun t => decide (t.UserID = 1))) ∧
      (∀ t, t ∈ todos.toList ↔ t ∈ sampleDB.todos ∧ t.UserID = 1) ∧
      todos.toList.Pairwise (fun a b => b.CreatedAt ≤ a.CreatedAt) ∧
      (getTodos sampleDB (sampleEnv 50000) 1).db = sampleDB :=
  ⟨by decide, getTodos_lists_user_todos sampleDB (sampleEnv 50000) 1 rfl rfl⟩

/-! ## What one request does to the datastore -/

theorem insertSession_some (db db1 : DB) (fault : Bool) (id : String) (userID : Int)
    (expiresAt : Time) (h : insertSession db fault id userID expiresAt = some db1) :
    db1 = { db with sessions := db.sessions ++ [⟨id, userID, truncMicro expiresAt⟩] } ∧
    ∀ s ∈ db.sessions, s.ID ≠ id := by
  unfold insertSession at h
  split_ifs at h with h1 h2
  simp only [Option.some.injEq] at h
  refine ⟨h.symm, ?_⟩
  intro s hs hid
  apply h2
  rw [List.any_eq_true]
  exact ⟨s, hs, by simpa using hid⟩

theorem insertUser_some (db db1 : DB) (fault : Bool) (email hash : String) (createdAt : Time)
    (id : Int) (h : insertUser db fault email hash createdAt = some (db1, id)) :
    db1 = { db with users := db.users ++ [⟨db.nextUserID, email, hash, truncMicro createdAt⟩],
                    nextUserID := db.nextUserID + 1 } ∧ id = db.nextUserID := by
  unfold insertUser at h
  split_ifs at h
  simp only [Option.some.injEq, Prod.mk.injEq] at h
  exact ⟨h.1.symm, h.2.symm⟩

/-- The two outcomes of lines 148-170: the insert fails and nothing changes,
or one session row with a fresh id is appended and the login response is
written. -/
theorem loginCreateSession_cases (db : DB) (env : Env) (userID : Int) (email : String)
    (calls : List Call) :
    (loginCreateSession db env userID email calls).db.users = db.users ∧
    (loginCreateSession db env userID email calls).db.todos = db.todos ∧
    (loginCreateSession db env userID email calls).db.nextTodoID = db.nextTodoID ∧
    (((loginCreateSession db env userID email calls).db.sessions = db.sessions ∧
      (loginCreateSession db env userID email calls).resp
        = httpError "Failed to create session" 500) ∨
     ((loginCreateSession db env userID email calls).db.sessions
        = db.sessions ++ [⟨generateSessionID env.rand, userID, truncMicro (env.nowSession + ttl24h)⟩] ∧
      (∀ s ∈ db.sessions, s.ID ≠ generateSessionID env.rand) ∧
      (loginCreateSession db env userID email calls).resp
        = jsonOK (.loginResponse (generateSessionID env.rand) userID email))) := by
  cases hins : insertSession db env.faults.insertSession (generateSessionID env.rand) userID
      (env.nowSession + ttl24h) with
  | none => simp [loginCreateSession, hins]
  | some db1 =>
    obtain ⟨hdb, hfresh⟩ := insertSession_some _ _ _ _ _ _ hins
    simp only [loginCreateSession, hins]
    subst hdb
    exact ⟨rfl, rfl, rfl, Or.inr ⟨rfl, hfresh, trivial⟩⟩

/-- What `loginHandler` does to the datastore: the todos are untouched; either
the sessions are untouched and the response is not a login response, or one
session row with a fresh id, expiring 24 hours after the issue time, is
appended for the user named in the login response. -/
theorem loginHandler_cases (bc : Bcrypt) (db : DB) (r : Request) (env : Env) :
    (loginHandler bc db r env).db.todos = db.todos ∧
    (loginHandler bc db r env).db.nextTodoID = db.nextTodoID ∧
    (((loginHandler bc db r env).db.sessions = db.sessions ∧
      ∀ tok uid em, (loginHandler bc db r env).resp ≠ jsonOK (.loginResponse tok uid em)) ∨
     (∃ uid email,
      (loginHandler bc db r env).db.sessions
        = db.sessions ++ [⟨generateSessionID env.rand, uid, truncMicro (env.nowSession + ttl24h)⟩] ∧
      (∀ s ∈ db.sessions, s.ID ≠ generateSessionID env.rand) ∧
      (loginHandler bc db r env).resp
        = jsonOK (.loginResponse (generateSessionID env.rand) uid email) ∧
      ∃ u ∈ (loginHandler bc db r env).db.users, u.ID = uid ∧ u.Email = email)) := by
  unfold loginHandler
  split_ifs with h1 h2 h3
  · exact ⟨rfl, rfl, Or.inl ⟨rfl, by simp [jsonOK]⟩⟩
  · exact ⟨rfl, rfl, Or.inl ⟨rfl, by simp [jsonOK, httpError]⟩⟩
  all_goals (cases hb : r.loginBody with
    | none => exact ⟨rfl, rfl, Or.inl ⟨rfl, by simp [jsonOK, httpError]⟩⟩
    | some loginReq => ?_)
  · exact ⟨rfl, rfl, Or.inl ⟨rfl, by simp [jsonOK, httpError]⟩⟩
  · simp only
    cases hsel : selectUserByEmail db.users loginReq.Email with
    | none =>
      simp only
      cases hh : bc.generateFromPassword loginReq.Password env.salt with
      | none => exact ⟨rfl, rfl, Or.inl ⟨rfl, by simp [jsonOK, httpError]⟩⟩
      | some hashed =>
        simp only
        cases hiu : insertUser db env.faults.insertUser loginReq.Email hashed env.nowUser with
        | none => exact ⟨rfl, rfl, Or.inl ⟨rfl, by simp [jsonOK, httpError]⟩⟩
        | some p =>
          obtain ⟨db1, id⟩ := p
          obtain ⟨hdb1, hid⟩ := insertUser_some _ _ _ _ _ _ _ hiu
          simp only
          obtain ⟨cu, ct, cn, cs⟩ := loginCreateSession_cases db1 env id loginReq.Email
            [.bcryptGenerate loginReq.Password]
          have hs1 : db1.sessions = db.sessions := by rw [hdb1]
          have ht1 : db1.todos = db.todos := by rw [hdb1]
          have hn1 : db1.nextTodoID = db.nextTodoID := by rw [hdb1]
          refine ⟨ct.trans ht1, cn.trans hn1, ?_⟩
          rcases cs with ⟨e1, e2⟩ | ⟨e1, e2, e3⟩
          · exact Or.inl ⟨e1.trans hs1, by rw [e2]; simp [jsonOK, httpError]⟩
          · refine Or.inr ⟨id, loginReq.Email, by rw [e1, hs1], by rw [← hs1]; exact e2, e3, ?_⟩
            rw [cu, hdb1]
            exact ⟨⟨db.nextUserID, loginReq.Email, hashed, truncMicro env.nowUser⟩, by simp,
              hid.symm, rfl⟩
    | some user =>
      simp only
      obtain ⟨hmem, -⟩ := selectUserByEmail_some_imp _ _ _ hsel
      split_ifs with hc
      · obtain ⟨cu, ct, cn, cs⟩ := loginCreateSession_cases db env user.ID user.Email
          [.bcryptCompare user.PasswordHash loginReq.Password]
        refine ⟨ct, cn, ?_⟩
        rcases cs with ⟨e1, e2⟩ | ⟨e1, e2, e3⟩
        · exact Or.inl ⟨e1, by rw [e2]; simp [jsonOK, httpError]⟩
        · exact Or.inr ⟨user.ID, user.Email, e1, e2, e3, user, by rw [cu]; exact hmem, rfl, rfl⟩
      · exact ⟨rfl, rfl, Or.inl ⟨rfl, by simp [jsonOK, httpError]⟩⟩

theorem getTodos_db (db : DB) (env : Env) (userID : Int) : (getTodos db env userID).db = db := by
  unfold getTodos
  split_ifs
  · rfl
  · split <;> rfl

/-- What `createTodo` does to the datastore: nothing, or one row for `userID`
with the next id is appended. -/
theorem createTodo_cases (db : DB) (r : Request) (env : Env) (userID : Int) :
    (createTodo db r env userID).db.sessions = db.sessions ∧
    (((createTodo db r env userID).db.todos = db.todos ∧
      (createTodo db r env userID).db.nextTodoID = db.nextTodoID) ∨
     (∃ title,
      (createTodo db r env userID).db.todos
        = db.todos ++ [⟨db.nextTodoID, userID, title, false, truncMicro env.nowInsert⟩] ∧
      (createTodo db r env userID).db.nextTodoID = db.nextTodoID + 1)) := by
  unfold createTodo
  cases hb : r.todoBody with
  | none => exact ⟨rfl, Or.inl ⟨rfl, rfl⟩⟩
  | some todoReq =>
    simp only
    split_ifs with ht
    · exact ⟨rfl, Or.inl ⟨rfl, rfl⟩⟩
    · cases hf : env.faults.insertTodo with
      | true => simp [insertTodo]
      | false =>
        refine ⟨?_, Or.inr ⟨todoReq.Title, ?_, ?_⟩⟩ <;> simp [insertTodo]

/-- What `todosHandler` does to the datastore: the sessions are untouched; the
todos are untouched, or the request is a POST authenticated as some user and
one row of that user with the next id is appended. -/
theorem todosHandler_cases (db : DB) (r : Request) (env : Env) :
    (todosHandler db r env).db.sessions = db.sessions ∧
    (((todosHandler db r env).db.todos = db.todos ∧
      (todosHandler db r env).db.nextTodoID = db.nextTodoID) ∨
     (∃ u title, r.method = "POST" ∧ todosAuth db r env = .ok u ∧
      (todosHandler db r env).db.todos
        = db.todos ++ [⟨db.nextTodoID, u, title, false, truncMicro env.nowInsert⟩] ∧
      (todosHandler db r env).db.nextTodoID = db.nextTodoID + 1)) := by
  unfold todosHandler
  split_ifs with h1
  · exact ⟨rfl, Or.inl ⟨rfl, rfl⟩⟩
  · cases hauth : todosAuth db r env with
    | error resp => exact ⟨rfl, Or.inl ⟨rfl, rfl⟩⟩
    | ok u =>
      simp only [todosSwitch]
      split_ifs with hg hp
      · rw [getTodos_db]; exact ⟨rfl, Or.inl ⟨rfl, rfl⟩⟩
      · obtain ⟨cs, ct⟩ := createTodo_cases db r env u
        refine ⟨cs, ?_⟩
        rcases ct with ct | ⟨title, c1, c2⟩
        · exact Or.inl ct
        · exact Or.inr ⟨u, title, hp, rfl, c1, c2⟩
      · exact ⟨rfl, Or.inl ⟨rfl, rfl⟩⟩

/-- What serving one request does to the sessions and to the todos. -/
theorem serve_cases (bc : Bcrypt) (db : DB) (path : String) (r : Request) (env : Env) :
    ((serve bc db path r env).db.sessions = db.sessions ∨
     (∃ s, (serve bc db path r env).db.sessions = db.sessions ++ [s] ∧
        ∀ x ∈ db.sessions, x.ID ≠ s.ID)) ∧
    (((serve bc db path r env).db.todos = db.todos ∧
      (serve bc db path r env).db.nextTodoID = db.nextTodoID) ∨
     (∃ u title, path = "/todos" ∧ r.method = "POST" ∧ todosAuth db r env = .ok u ∧
      (serve bc db path r env).db.todos
        = db.todos ++ [⟨db.nextTodoID, u, title, false, truncMicro env.nowInsert⟩] ∧
      (serve bc db path r env).db.nextTodoID = db.nextTodoID + 1)) := by
  unfold serve
  split_ifs with h1 h2
  · obtain ⟨ct, cn, cs⟩ := loginHandler_cases bc db r env
    refine ⟨?_, Or.inl ⟨ct, cn⟩⟩
    rcases cs with ⟨e1, _⟩ | ⟨uid, email, e1, e2, _⟩
    · exact Or.inl e1
    · exact Or.inr ⟨_, e1, e2⟩
  · obtain ⟨cs, ct⟩ := todosHandler_cases db r env
    refine ⟨Or.inl cs, ?_⟩
    rcases ct with ct | ⟨u, title, hp, ha, c1, c2⟩
    · exact Or.inl ct
    · exact Or.inr ⟨u, title, h2, hp, ha, c1, c2⟩
  · unfold corsMiddleware notFound
    split_ifs <;> exact ⟨Or.inl rfl, Or.inl ⟨rfl, rfl⟩⟩

/-- The ids of the session rows stay pairwise distinct. -/
theorem serve_session_ids (bc : Bcrypt) (db : DB) (path : String) (r : Request) (env : Env)
    (h : db.sessions.Pairwise (fun a b => a.ID ≠ b.ID)) :
    (serve bc db path r env).db.sessions.Pairwise (fun a b => a.ID ≠ b.ID) := by
  rcases (serve_cases bc db path r env).1 with e | ⟨new, e, hfresh⟩
  · rw [e]; exact h
  · rw [e, List.pairwise_append]
    refine ⟨h, List.pairwise_singleton _ _, ?_⟩
    intro a ha b hb
    rw [List.mem_singleton] at hb
    subst hb
    exact hfresh a ha

/-- In every datastore reached from the empty tables the ids of the session
rows are pairwise distinct. -/
theorem runDB_session_ids (bc : Bcrypt) : ∀ (reqs : List Incoming) (db : DB),
    db.sessions.Pairwise (fun a b => a.ID ≠ b.ID) →
    (runDB bc db reqs).sessions.Pairwise (fun a b => a.ID ≠ b.ID)
  | [], _, h => h
  | inc :: rest, db, h =>
    runDB_session_ids bc rest _ (serve_session_ids bc db inc.path inc.req inc.env h)

/-! ## Lifetime of a session -/

/-- The table holds `row` and no other row with the id of `row`. -/
theorem holds_after_serve (bc : Bcrypt) (db : DB) (path : String) (r : Request) (env : Env)
    (row : Session)
    (h : row ∈ db.sessions ∧ ∀ s ∈ db.sessions, s.ID = row.ID → s = row) :
    row ∈ (serve bc db path r env).db.sessions ∧
    ∀ s ∈ (serve bc db path r env).db.sessions, s.ID = row.ID → s = row := by
  rcases (serve_cases bc db path r env).1 with e | ⟨new, e, hfresh⟩
  · rw [e]; exact h
  · rw [e]
    refine ⟨List.mem_append_left _ h.1, ?_⟩
    intro s hs hid
    rcases List.mem_append.mp hs with hs | hs
    · exact h.2 s hs hid
    · rw [List.mem_singleton] at hs
      subst hs
      exact absurd hid.symm (hfresh row h.1)

theorem holds_after_runDB (bc : Bcrypt) (row : Session) : ∀ (later : List Incoming) (db : DB),
    (row ∈ db.sessions ∧ ∀ s ∈ db.sessions, s.ID = row.ID → s = row) →
    row ∈ (runDB bc db later).sessions ∧
    ∀ s ∈ (runDB bc db later).sessions, s.ID = row.ID → s = row
  | [], _, h => h
  | inc :: rest, db, h =>
    holds_after_runDB bc row rest _ (holds_after_serve bc db inc.path inc.req inc.env row h)

theorem selectSessionUser_of_holds (sessions : List Session) (row : Session) (now : Time)
    (h : row ∈ sessions ∧ ∀ s ∈ sessions, s.ID = row.ID → s = row) :
    (now < row.ExpiresAt → selectSessionUser sessions row.ID now = some row.UserID) ∧
    (row.ExpiresAt ≤ now → selectSessionUser sessions row.ID now = none) := by
  constructor
  · intro hlt
    cases hsel : selectSessionUser sessions row.ID now with
    | none =>
      exact absurd ⟨row, h.1, rfl, hlt⟩ ((selectSessionUser_none_iff sessions row.ID now).mp hsel)
    | some u =>
      obtain ⟨s, hs, hid, hu, _⟩ := selectSessionUser_some_imp sessions row.ID now u hsel
      rw [← hu, h.2 s hs hid]
  · intro hle
    rw [selectSessionUser_none_iff]
    rintro ⟨s, hs, hid, hlt⟩
    rw [h.2 s hs hid] at hlt
    exact absurd hlt (not_lt.mpr hle)

/-! ### Microsecond precision -/

theorem truncMicro_le (t : Int) : truncMicro t ≤ t := by
  have h : t / 1000 * 1000 ≤ t := by omega
  exact h

theorem lt_truncMicro_add (t : Int) : t < truncMicro t + 1000 := by
  have h : t < t / 1000 * 1000 + 1000 := by omega
  exact h

theorem truncMicro_idem (t : Int) : truncMicro (truncMicro t) = truncMicro t := by
  have h : t / 1000 * 1000 / 1000 * 1000 = t / 1000 * 1000 := by omega
  exact h

/-- Against a whole-microsecond expiry, comparing the time cut to the
microsecond and comparing the time as given come out the same. -/
theorem truncMicro_lt_iff (now e : Int) (he : truncMicro e = e) :
    truncMicro now < e ↔ now < e := by
  have he1 : e / 1000 * 1000 = e := he
  have h : now / 1000 * 1000 < e ↔ now < e := by omega
  exact h

/-- Serving a request keeps every stored expiry a whole microsecond. -/
theorem serve_session_expiry (bc : Bcrypt) (db : DB) (path : String) (r : Request) (env : Env)
    (h : ∀ s ∈ db.sessions, truncMicro s.ExpiresAt = s.ExpiresAt) :
    ∀ s ∈ (serve bc db path r env).db.sessions, truncMicro s.ExpiresAt = s.ExpiresAt := by
  unfold serve
  split_ifs with h1 h2
  · obtain ⟨-, -, cs⟩ := loginHandler_cases bc db r env
    rcases cs with ⟨e1, -⟩ | ⟨uid, email, e1, -, -, -⟩
    · rw [e1]; exact h
    · rw [e1]
      intro s hs
      rcases List.mem_append.mp hs with hs | hs
      · exact h s hs
      · rw [List.mem_singleton] at hs
        subst hs
        exact truncMicro_idem _
  · rw [(todosHandler_cases db r env).1]; exact h
  · unfold corsMiddleware notFound
    split_ifs <;> exact h

/-- In every datastore reached from the empty tables the stored expiries are
whole microseconds. -/
theorem runDB_session_expiry (bc : Bcrypt) : ∀ (reqs : List Incoming) (db : DB),
    (∀ s ∈ db.sessions, truncMicro s.ExpiresAt = s.ExpiresAt) →
    ∀ s ∈ (runDB bc db reqs).sessions, truncMicro s.ExpiresAt = s.ExpiresAt
  | [], _, h => h
  | inc :: rest, db, h =>
    runDB_session_expiry bc rest _ (serve_session_expiry bc db inc.path inc.req inc.env h)

/-- C4, as stated, fails: `a@x.com` logs in on the empty datastore at
`t = 500` ns; the stored expiry is `24h`, not `t + 24h`, and a protected
request carrying the token at `t2 = 24h + 100` ns, which lies in
`t ≤ t2 < t + 24h`, is answered 401. -/
theorem session_rejected_inside_24h :
    (loginHandler sampleBcrypt DB.empty (loginReq "a@x.com" "pw1") (sampleEnv 500)).resp
      = jsonOK (.loginResponse sampleToken 1 "a@x.com") ∧
    (loginHandler sampleBcrypt DB.empty (loginReq "a@x.com" "pw1") (sampleEnv 500)).db.sessions
      = [⟨sampleToken, 1, ttl24h⟩] ∧
    ((500 : Time) ≤ ttl24h + 100 ∧ ttl24h + 100 < 500 + ttl24h) ∧
    (todosHandler
        (loginHandler sampleBcrypt DB.empty (loginReq "a@x.com" "pw1") (sampleEnv 500)).db
        (getReq sampleToken) (sampleEnv (ttl24h + 100))).resp
      = httpError "Invalid or expired session" 401 := by
  decide

/-- C4, amended: a login answered with the login response `(tok, uid, email)`
at issue time `t = env.nowSession` has appended the one session row
`(tok, uid, E)` with `E` being `t + 24h` cut to the whole microsecond, and
`uid`, `email` are those of a user record; from then on, after any further
requests, a protected request carrying `tok` and checked at `t2` goes on with
`uid` whenever `t2 < E` and the lookup runs, in particular whenever
`t2 + 1 µs ≤ t + 24h`, and is answered 401 whenever `t2 ≥ E`, in particular
whenever `t2 ≥ t + 24h`. -/
theorem loginHandler_session_lifetime (bc : Bcrypt) (db : DB) (r : Request) (env : Env)
    (tok : String) (uid : Int) (email : String)
    (hok : (loginHandler bc db r env).resp = jsonOK (.loginResponse tok uid email)) :
    (loginHandler bc db r env).db.sessions
      = db.sessions ++ [⟨tok, uid, truncMicro (env.nowSession + ttl24h)⟩] ∧
    (∃ u ∈ (loginHandler bc db r env).db.users, u.ID = uid ∧ u.Email = email) ∧
    ∀ (later : List Incoming) (r2 : Request) (env2 : Env),
      r2.method ≠ "OPTIONS" → r2.authorization = tok →
      (env2.nowAuth < truncMicro (env.nowSession + ttl24h) →
        env2.faults.selectSession = false →
        todosAuth (runDB bc (loginHandler bc db r env).db later) r2 env2 = .ok uid ∧
        todosHandler (runDB bc (loginHandler bc db r env).db later) r2 env2
          = todosSwitch (runDB bc (loginHandler bc db r env).db later) r2 env2 uid) ∧
      (env2.nowAuth + 1000 ≤ env.nowSession + ttl24h →
        env2.faults.selectSession = false →
        todosAuth (runDB bc (loginHandler bc db r env).db later) r2 env2 = .ok uid) ∧
      (truncMicro (env.nowSession + ttl24h) ≤ env2.nowAuth →
        todosHandler (runDB bc (loginHandler bc db r env).db later) r2 env2
          = ⟨runDB bc (loginHandler bc db r env).db later,
              httpError "Invalid or expired session" 401, []⟩) ∧
      (env.nowSession + ttl24h ≤ env2.nowAuth →
        todosHandler (runDB bc (loginHandler bc db r env).db later) r2 env2
          = ⟨runDB bc (loginHandler bc db r env).db later,
              httpError "Invalid or expired session" 401, []⟩) := by
  obtain ⟨-, -, cs⟩ := loginHandler_cases bc db r env
  rcases cs with ⟨-, hne⟩ | ⟨uid1, email1, e1, hfresh, e3, hu⟩
  · exact absurd hok (hne tok uid email)
  · rw [e3] at hok
    simp only [jsonOK, Response.mk.injEq, Body.json.injEq, Json.loginResponse.injEq,
      true_and] at hok
    obtain ⟨htok, huid, hemail⟩ := hok
    subst huid hemail
    rw [htok] at e1 hfresh
    refine ⟨e1, hu, ?_⟩
    intro later r2 env2 hm ha
    have hne : tok ≠ "" := by
      rw [← htok]; exact generateSessionID_ne_empty env.rand
    have hold0 : (⟨tok, uid1, truncMicro (env.nowSession + ttl24h)⟩ : Session)
          ∈ (loginHandler bc db r env).db.sessions ∧
        ∀ s ∈ (loginHandler bc db r env).db.sessions,
          s.ID = (⟨tok, uid1, truncMicro (env.nowSession + ttl24h)⟩ : Session).ID →
            s = ⟨tok, uid1, truncMicro (env.nowSession + ttl24h)⟩ := by
      rw [e1]
      refine ⟨by simp, ?_⟩
      intro s hs hid
      rcases List.mem_append.mp hs with hs | hs
      · exact absurd hid (hfresh s hs)
      · exact List.mem_singleton.mp hs
    have hold := holds_after_runDB bc _ later _ hold0
    obtain ⟨hvalid, hexpired⟩ := selectSessionUser_of_holds _ _ env2.nowAuth hold
    simp only at hvalid hexpired
    have hgo : env2.nowAuth < truncMicro (env.nowSession + ttl24h) →
        env2.faults.selectSession = false →
        todosAuth (runDB bc (loginHandler bc db r env).db later) r2 env2 = .ok uid1 := by
      intro hlt hf
      simp only [todosAuth, ha, hne, if_false, hf, Bool.false_eq_true, hvalid hlt]
    have hstop : truncMicro (env.nowSession + ttl24h) ≤ env2.nowAuth →
        todosHandler (runDB bc (loginHandler bc db r env).db later) r2 env2
          = ⟨runDB bc (loginHandler bc db r env).db later,
              httpError "Invalid or expired session" 401, []⟩ := by
      intro hle
      simp only [todosHandler, hm, if_false, todosAuth, ha, hne, hexpired hle, ite_self]
    refine ⟨?_, ?_, hstop, ?_⟩
    · intro hlt hf
      have hauth := hgo hlt hf
      exact ⟨hauth, by simp only [todosHandler, hm, if_false, hauth]⟩
    · intro hlt hf
      have h1 : env.nowSession + ttl24h < truncMicro (env.nowSession + ttl24h) + 1000 :=
        lt_truncMicro_add _
      exact hgo (lt_of_lt_of_le (Int.lt_of_add_lt_add_right (lt_of_le_of_lt hlt h1)) le_rfl) hf
    · intro hle
      exact hstop (le_trans (truncMicro_le _) hle)

/-- Witness of the amended C4: `a@x.com` logs in on the empty datastore at
time 10 µs; the token is accepted at time 20 µs and rejected 24 hours after
the login. -/
theorem loginHandler_session_lifetime_witness :
    todosAuth (loginHandler sampleBcrypt DB.empty (loginReq "a@x.com" "pw1") (sampleEnv 10000)).db
        (getReq sampleToken) (sampleEnv 20000) = .ok 1 ∧
    (todosHandler
        (loginHandler sampleBcrypt DB.empty (loginReq "a@x.com" "pw1") (sampleEnv 10000)).db
        (getReq sampleToken) (sampleEnv (10000 + ttl24h))).resp
      = httpError "Invalid or expired session" 401 :=
  have h := (loginHandler_session_lifetime sampleBcrypt DB.empty (loginReq "a@x.com" "pw1")
    (sampleEnv 10000) sampleToken 1 "a@x.com" (by decide)).2.2
  ⟨((h [] (getReq sampleToken) (sampleEnv 20000) (by decide) rfl).1 (by decide) rfl).1,
   congrArg Result.resp
    ((h [] (getReq sampleToken) (sampleEnv (10000 + ttl24h)) (by decide) rfl).2.2.2 (by decide))⟩

/-! ## Isolation -/

theorem run_genuine (bc : Bcrypt) : ∀ (reqs : List Incoming) (db : DB),
    ∀ e ∈ run bc db reqs, e.out = serve bc e.pre e.inc.path e.inc.req e.inc.env
  | [], _, e, he => by cases he
  | inc :: rest, db, e, he => by
    simp only [run, List.mem_cons] at he
    rcases he with rfl | he
    · rfl
    · exact run_genuine bc rest _ e he

/-- A list-todos request authenticated as `B` that answers a JSON array returns
only rows of the table with user_id `B`. -/
theorem list_returns_own_rows (bc : Bcrypt) (e : Event) (B : Int) (L : List Todo)
    (hg : e.out = serve bc e.pre e.inc.path e.inc.req e.inc.env)
    (hl : e.listsAs B) (hr : e.out.resp = jsonOK (.todoArray L)) :
    ∀ t ∈ L, t ∈ e.pre.todos ∧ t.UserID = B := by
  obtain ⟨hp, hm, ha⟩ := hl
  have hlogin : ¬ ("/todos" = "/login") := by decide
  have hopt : ¬ ("GET" = "OPTIONS") := by decide
  have hout : e.out = getTodos e.pre e.inc.env B := by
    rw [hg]
    simp only [serve, hp, hlogin, if_false, if_true, todosHandler, hm, hopt, ha, todosSwitch]
  rw [hout] at hr
  cases hq : e.inc.env.faults.queryTodos with
  | true => simp [getTodos, hq, httpError, jsonOK] at hr
  | false =>
    cases hs : e.inc.env.faults.scanTodo with
    | true =>
      cases hrows : selectTodos e.pre.todos B with
      | nil => simp [getTodos, hq, hrows, getTodosLoop, marshalTodos, jsonOK] at hr
      | cons row rows => simp [getTodos, hq, hs, hrows, getTodosLoop, httpError, jsonOK] at hr
    | false =>
      obtain ⟨todos, h1, h2, _⟩ := getTodos_ok e.pre e.inc.env B hq hs
      rw [h1] at hr
      cases todos with
      | nil => simp [marshalTodos, jsonOK] at hr
      | vals xs =>
        simp only [marshalTodos, jsonOK, Response.mk.injEq, Body.json.injEq,
          Json.todoArray.injEq, true_and] at hr
        subst hr
        intro t ht
        simp only [Slice.toList] at h2
        rw [h2] at ht
        exact (selectTodos_mem e.pre.todos B t).mp ht

/-- A create-todo request authenticated as `A` inserts only rows with user_id
`A`. -/
theorem create_inserts_own_row (bc : Bcrypt) (e : Event) (A : Int) (row : Todo)
    (hg : e.out = serve bc e.pre e.inc.path e.inc.req e.inc.env)
    (hc : e.createsAs A) (hi : e.inserts row) : row.UserID = A := by
  obtain ⟨_, _, ha⟩ := hc
  unfold Event.inserts at hi
  rw [hg] at hi
  rcases (serve_cases bc e.pre e.inc.path e.inc.req e.inc.env).2 with ⟨c, _⟩ |
      ⟨u, title, _, _, hau, c, _⟩
  · rw [c] at hi
    have := congrArg List.length hi
    simp at this
  · rw [c] at hi
    have hrow := List.append_cancel_left hi
    simp only [List.cons.injEq, and_true] at hrow
    rw [ha] at hau
    simp only [Except.ok.injEq] at hau
    rw [← hrow, hau]

/-- Serving a request keeps the rows of the todo table. -/
theorem serve_todos_subset (bc : Bcrypt) (db : DB) (path : String) (r : Request) (env : Env) :
    ∀ t ∈ db.todos, t ∈ (serve bc db path r env).db.todos := by
  intro t ht
  rcases (serve_cases bc db path r env).2 with ⟨c, _⟩ | ⟨u, title, _, _, _, c, _⟩
  · rw [c]; exact ht
  · rw [c]; exact List.mem_append_left _ ht

theorem runDB_todos_subset (bc : Bcrypt) : ∀ (reqs : List Incoming) (db : DB),
    ∀ t ∈ db.todos, t ∈ (runDB bc db reqs).todos
  | [], _, _, ht => ht
  | inc :: rest, db, t, ht =>
    runDB_todos_subset bc rest _ t (serve_todos_subset bc db inc.path inc.req inc.env t ht)

theorem run_todos_subset (bc : Bcrypt) : ∀ (reqs : List Incoming) (db : DB),
    ∀ e ∈ run bc db reqs, ∀ t, (t ∈ e.pre.todos ∨ t ∈ e.out.db.todos) →
      t ∈ (runDB bc db reqs).todos
  | [], _, e, he, _, _ => by cases he
  | inc :: rest, db, e, he, t, ht => by
    simp only [run, List.mem_cons] at he
    rcases he with rfl | he
    · simp only [runDB]
      apply runDB_todos_subset
      rcases ht with ht | ht
      · exact serve_todos_subset bc _ _ _ _ t ht
      · exact ht
    · exact run_todos_subset bc rest _ e he t ht

/-- The ids of the todo rows are below the counter and pairwise distinct. -/
theorem serve_todo_ids (bc : Bcrypt) (db : DB) (path : String) (r : Request) (env : Env)
    (h : (∀ t ∈ db.todos, t.ID < db.nextTodoID) ∧ db.todos.Pairwise (fun a b => a.ID ≠ b.ID)) :
    (∀ t ∈ (serve bc db path r env).db.todos, t.ID < (serve bc db path r env).db.nextTodoID) ∧
    (serve bc db path r env).db.todos.Pairwise (fun a b => a.ID ≠ b.ID) := by
  rcases (serve_cases bc db path r env).2 with ⟨c, cn⟩ | ⟨u, title, _, _, _, c, cn⟩
  · rw [c, cn]; exact h
  · rw [c, cn]
    constructor
    · intro t ht
      rcases List.mem_append.mp ht with ht | ht
      · have := h.1 t ht; omega
      · rw [List.mem_singleton] at ht; subst ht; simp
    · rw [List.pairwise_append]
      refine ⟨h.2, List.pairwise_singleton _ _, ?_⟩
      intro a ha b hb
      rw [List.mem_singleton] at hb
      subst hb
      have := h.1 a ha
      simp only [ne_eq]
      omega

theorem runDB_todo_ids (bc : Bcrypt) : ∀ (reqs : List Incoming) (db : DB),
    ((∀ t ∈ db.todos, t.ID < db.nextTodoID) ∧ db.todos.Pairwise (fun a b => a.ID ≠ b.ID)) →
    (∀ t ∈ (runDB bc db reqs).todos, t.ID < (runDB bc db reqs).nextTodoID) ∧
    (runDB bc db reqs).todos.Pairwise (fun a b => a.ID ≠ b.ID)
  | [], _, h => h
  | inc :: rest, db, h =>
    runDB_todo_ids bc rest _ (serve_todo_ids bc db inc.path inc.req inc.env h)

theorem todo_eq_of_ID_eq : ∀ (l : List Todo),
    l.Pairwise (fun a b => a.ID ≠ b.ID) → ∀ a ∈ l, ∀ b ∈ l, a.ID = b.ID → a = b
  | [], _, a, ha, _, _, _ => by cases ha
  | x :: xs, hp, a, ha, b, hb, hab => by
    rw [List.pairwise_cons] at hp
    rcases List.mem_cons.mp ha with rfl | ha'
    · rcases List.mem_cons.mp hb with rfl | hb'
      · rfl
      · exact absurd hab (hp.1 b hb')
    · rcases List.mem_cons.mp hb with rfl | hb'
      · exact absurd hab.symm (hp.1 a ha')
      · exact todo_eq_of_ID_eq xs hp.2 a ha' b hb' hab

/-- Every row of the todo table was inserted by a create-todo request of the
history that was authenticated as the user of the row: kept by each request. -/
theorem provenance_after_serve (bc : Bcrypt) (hist : List Event) (db : DB) (inc : Incoming)
    (h : ∀ row ∈ db.todos, ∃ e ∈ hist, e.createsAs row.UserID ∧ e.inserts row) :
    ∀ row ∈ (serve bc db inc.path inc.req inc.env).db.todos,
      ∃ e ∈ hist ++ [⟨db, inc, serve bc db inc.path inc.req inc.env⟩],
        e.createsAs row.UserID ∧ e.inserts row := by
  intro row hrow
  rcases (serve_cases bc db inc.path inc.req inc.env).2 with ⟨c, _⟩ |
      ⟨u, title, hp, hm, ha, c, _⟩
  · rw [c] at hrow
    obtain ⟨e, he, h1, h2⟩ := h row hrow
    exact ⟨e, List.mem_append_left _ he, h1, h2⟩
  · rw [c] at hrow
    rcases List.mem_append.mp hrow with hrow | hrow
    · obtain ⟨e, he, h1, h2⟩ := h row hrow
      exact ⟨e, List.mem_append_left _ he, h1, h2⟩
    · rw [List.mem_singleton] at hrow
      subst hrow
      exact ⟨_, List.mem_append_right _ (List.mem_singleton_self _), ⟨hp, hm, ha⟩, c⟩

theorem run_list_provenance (bc : Bcrypt) (B : Int) (L : List Todo) :
    ∀ (reqs : List Incoming) (db : DB) (hist : List Event),
    (∀ row ∈ db.todos, ∃ e ∈ hist, e.createsAs row.UserID ∧ e.inserts row) →
    ∀ (pre post : List Event) (e : Event), run bc db reqs = pre ++ e :: post →
    e.listsAs B → e.out.resp = jsonOK (.todoArray L) →
    ∀ t ∈ L, t.UserID = B ∧ ∃ e1 ∈ hist ++ pre, e1.createsAs B ∧ e1.inserts t
  | [], _, _, _, pre, post, e, hrun, _, _ => by
    simp [run] at hrun
  | inc :: rest, db, hist, hprov, pre, post, e, hrun, hl, hr => by
    simp only [run] at hrun
    cases pre with
    | nil =>
      simp only [List.nil_append, List.cons.injEq] at hrun
      obtain ⟨he, _⟩ := hrun
      subst he
      intro t ht
      obtain ⟨hmem, hu⟩ := list_returns_own_rows bc _ B L rfl hl hr t ht
      obtain ⟨e1, he1, h1, h2⟩ := hprov t hmem
      rw [hu] at h1
      exact ⟨hu, e1, by simpa using he1, h1, h2⟩
    | cons e0 pre1 =>
      simp only [List.cons_append, List.cons.injEq] at hrun
      obtain ⟨he0, hrest⟩ := hrun
      have ih := run_list_provenance bc B L rest _ (hist ++ [e0])
        (by rw [← he0]; exact provenance_after_serve bc hist db inc hprov)
        pre1 post e hrest hl hr
      intro t ht
      obtain ⟨hu, e1, he1, h1, h2⟩ := ih t ht
      exact ⟨hu, e1, by simpa using he1, h1, h2⟩

/-- C5: in the history of any finite sequence of requests served from the
empty tables, when a list-todos request authenticated as user `B` answers the
JSON array `L`, every todo `t` of `L` has user_id `B` and was inserted by an
earlier create-todo request authenticated as `B`; and for every user `A ≠ B`,
no row inserted by a create-todo request authenticated as `A`, anywhere in the
history, has the id of `t`. -/
theorem todos_isolated (bc : Bcrypt) (reqs : List Incoming) (pre post : List Event)
    (e : Event) (B : Int) (L : List Todo)
    (hrun : run bc DB.empty reqs = pre ++ e :: post)
    (hl : e.listsAs B) (hr : e.out.resp = jsonOK (.todoArray L)) :
    ∀ t ∈ L,
      t.UserID = B ∧
      (∃ e1 ∈ pre, e1.createsAs B ∧ e1.inserts t) ∧
      (∀ A, A ≠ B → ∀ e2 ∈ run bc DB.empty reqs, e2.createsAs A →
        ∀ row, e2.inserts row → row.ID ≠ t.ID ∧ row ∉ L) := by
  intro t ht
  have hmain := run_list_provenance bc B L reqs DB.empty []
    (fun row hrow => absurd hrow (List.not_mem_nil row)) pre post e hrun hl hr t ht
  refine ⟨hmain.1, by simpa using hmain.2, ?_⟩
  have hemem : e ∈ run bc DB.empty reqs := by rw [hrun]; simp
  have hwf := runDB_todo_ids bc reqs DB.empty
    ⟨fun t ht => absurd ht (List.not_mem_nil t), List.Pairwise.nil⟩
  have key : ∀ t1 ∈ L, ∀ A, A ≠ B → ∀ e2 ∈ run bc DB.empty reqs, e2.createsAs A →
      ∀ row, e2.inserts row → row.ID ≠ t1.ID := by
    intro t1 ht1 A hAB e2 he2 hc row hi hid
    obtain ⟨hpre, hu⟩ := list_returns_own_rows bc e B L (run_genuine bc reqs _ e hemem) hl hr t1 ht1
    have hA := create_inserts_own_row bc e2 A row (run_genuine bc reqs _ e2 he2) hc hi
    have hrowmem : row ∈ e2.out.db.todos := by
      unfold Event.inserts at hi; rw [hi]; simp
    have h1 := run_todos_subset bc reqs DB.empty e hemem t1 (Or.inl hpre)
    have h2 := run_todos_subset bc reqs DB.empty e2 he2 row (Or.inr hrowmem)
    have heq := todo_eq_of_ID_eq _ hwf.2 row h2 t1 h1 hid
    rw [heq, hu] at hA
    exact hAB hA.symm
  intro A hAB e2 he2 hc row hi
  refine ⟨key t ht A hAB e2 he2 hc row hi, ?_⟩
  intro hrowL
  exact key row hrowL A hAB e2 he2 hc row hi rfl

/-- Witness of C5 on the sample run: the todo the second user is answered has
user_id 2, was inserted by one of the four earlier requests, authenticated as
user 2, and shares its id with no row inserted under another identity. -/
theorem todos_isolated_witness :
    (⟨2, 2, "walk", false, 30000⟩ : Todo).UserID = 2 ∧
    (∃ e1 ∈ (run sampleBcrypt DB.empty sampleRun).take 4,
      e1.createsAs 2 ∧ e1.inserts ⟨2, 2, "walk", false, 30000⟩) ∧
    (∀ A, A ≠ 2 → ∀ e2 ∈ run sampleBcrypt DB.empty sampleRun, e2.createsAs A →
      ∀ row, e2.inserts row →
        row.ID ≠ (⟨2, 2, "walk", false, 30000⟩ : Todo).ID ∧
        row ∉ [(⟨2, 2, "walk", false, 30000⟩ : Todo)]) :=
  todos_isolated sampleBcrypt sampleRun ((run sampleBcrypt DB.empty sampleRun).take 4) []
    ⟨runDB sampleBcrypt DB.empty (sampleRun.take 4),
     ⟨"/todos", getReq sampleToken2, sampleEnv 40000⟩,
     serve sampleBcrypt (runDB sampleBcrypt DB.empty (sampleRun.take 4)) "/todos"
       (getReq sampleToken2) (sampleEnv 40000)⟩
    2 [⟨2, 2, "walk", false, 30000⟩] rfl ⟨rfl, rfl, rfl⟩ (by decide)
    ⟨2, 2, "walk", false, 30000⟩ (List.mem_singleton_self _)

end Todogo
